import Mathlib

/-!
Verification of the `wontun` VPN core described in `src/posts/vpn.md`.

We shallowly embed the Rust code shown in the post: machine integers
(`u32`, bytes) become `Nat` with explicit bounds and `% 2^w` where overflow
matters, byte buffers become `List Nat`, fallible operations return
`Option`, and the interior-mutability style (`&self` with `RwLock`) becomes
explicit state passing: each operation returns the updated `Peer` together
with its `Action`.
-/

namespace Wontun

/-- An IPv4 socket address (`SocketAddrV4`): 32-bit address plus port. -/
structure SocketAddrV4 where
  ip : Nat
  port : Nat
deriving DecidableEq, Repr

/-- Big-endian bytes of a 32-bit integer, most significant first. -/
def u32_to_be (n : Nat) : List Nat :=
  [n / 16777216 % 256, n / 65536 % 256, n / 256 % 256, n % 256]

/-- Reassemble a 32-bit integer from four big-endian bytes. -/
def u32_from_be (b0 b1 b2 b3 : Nat) : Nat :=
  ((b0 * 256 + b1) * 256 + b2) * 256 + b3

/-- Wire message `HandshakeInit` (`packet.rs`): the sender's plaintext name
and the index the sender asks the receiver to use for it. -/
structure HandshakeInit where
  sender_name : List Nat
  assigned_idx : Nat
deriving DecidableEq, Repr

/-- Wire message `HandshakeResponse` (`packet.rs`). -/
structure HandshakeResponse where
  assigned_idx : Nat
  sender_idx : Nat
deriving DecidableEq, Repr

/-- Wire message `PacketData` (`packet.rs`): sender index plus a raw IP
packet payload. -/
structure PacketData where
  sender_idx : Nat
  data : List Nat
deriving DecidableEq, Repr

/-- The `Packet` enum from `packet.rs`. -/
inductive Packet where
  | HandshakeInit (msg : HandshakeInit)
  | HandshakeResponse (msg : HandshakeResponse)
  | Data (msg : PacketData)
  | Empty
deriving DecidableEq, Repr

/-- Modelled from the spec: the post shows only the `Packet` data type, not
its codec. The wire format follows the spec's layout: a discriminant tag,
then for `HandshakeInit` the 32-bit index and the length-prefixed identity
bytes, for `HandshakeResponse` two 32-bit indices, for `Data` the 32-bit
sender index followed by the payload verbatim. `Empty` is the empty
datagram. -/
def Packet.format : Packet → List Nat
  | .HandshakeInit m => 1 :: (u32_to_be m.assigned_idx ++ (m.sender_name.length :: m.sender_name))
  | .HandshakeResponse m => 2 :: (u32_to_be m.assigned_idx ++ u32_to_be m.sender_idx)
  | .Data m => 3 :: (u32_to_be m.sender_idx ++ m.data)
  | .Empty => []

/-- Modelled from the spec: `Packet::parse_from`, inverse direction of
`Packet.format`. Malformed or truncated input yields `none` (the `Err`
case in Rust), and the caller discards the datagram. -/
def Packet.parse_from : List Nat → Option Packet
  | [] => some .Empty
  | 1 :: b0 :: b1 :: b2 :: b3 :: len :: rest =>
      if rest.length = len then
        some (.HandshakeInit ⟨rest, u32_from_be b0 b1 b2 b3⟩)
      else
        none
  | 2 :: [a0, a1, a2, a3, b0, b1, b2, b3] =>
      some (.HandshakeResponse ⟨u32_from_be a0 a1 a2 a3, u32_from_be b0 b1 b2 b3⟩)
  | 3 :: b0 :: b1 :: b2 :: b3 :: rest =>
      some (.Data ⟨u32_from_be b0 b1 b2 b3, rest⟩)
  | _ => none

/-- Well-formedness of a packet's fields: indices fit in 32 bits. -/
def Packet.wf : Packet → Prop
  | .HandshakeInit m => m.assigned_idx < 4294967296
  | .HandshakeResponse m => m.assigned_idx < 4294967296 ∧ m.sender_idx < 4294967296
  | .Data m => m.sender_idx < 4294967296
  | .Empty => True

instance : DecidablePred Packet.wf := by
  intro p
  cases p <;> simp [Packet.wf] <;> infer_instance

/-- The `HandshakeState` enum (`peer.rs`). -/
inductive HandshakeState where
  | None
  | HandshakeSent
  | HandshakeReceived (remote_idx : Nat)
  | Connected (remote_idx : Nat)
deriving DecidableEq, Repr

/-- The `Action` type returned by `Peer` handlers: do nothing, write bytes
to the network, or write bytes to the tun device tagged with the recovered
IPv4 source address. -/
inductive Action where
  | WriteToTunn (data : List Nat) (src : Nat)
  | WriteToNetwork (data : List Nat)
  | None
deriving DecidableEq, Repr

/-- Modelled from the spec: the external crate
`etherparse::Ipv4HeaderSlice::from_slice` used by `handle_packet_data` and
`handle_tun`. The slice parses as an IPv4 header when it is at least 20
bytes, the version nibble is 4, and the IHL nibble is at least 5 with the
full header present; the source address is bytes 12..16 big-endian.
Returns the source address on success. -/
def ipv4_source (data : List Nat) : Option Nat :=
  let b0 := data.getD 0 0
  if b0 / 16 = 4 ∧ 5 ≤ b0 % 16 ∧ b0 % 16 * 4 ≤ data.length ∧ 20 ≤ data.length then
    some (u32_from_be (data.getD 12 0) (data.getD 13 0) (data.getD 14 0) (data.getD 15 0))
  else
    none

/-- Does `key` fall in the CIDR range `addr/cidr`? Both addresses are
32-bit values compared on their top `cidr` bits (all arithmetic on `Nat`,
division by `2^(32-cidr)` discards the low bits). -/
def cidrContains (addr cidr key : Nat) : Bool :=
  addr / 2 ^ (32 - cidr) = key / 2 ^ (32 - cidr)

/-- Modelled from the spec: the post gives only the interface of
`AllowedIps<D>` (the implementation is taken from `boringtun`). We model
the table as the list of its (address, cidr, data) entries. -/
abbrev AllowedIps (D : Type) : Type := List (Nat × Nat × D)

/-- Modelled from the spec: `AllowedIps::new`. -/
def AllowedIps.new (D : Type) : AllowedIps D := []

/-- Modelled from the spec: `AllowedIps::insert` replaces the entry at the
same exact (address, cidr) key if present, otherwise adds the entry. -/
def AllowedIps.insert {D : Type} (table : AllowedIps D) (key cidr : Nat) (data : D) :
    AllowedIps D :=
  if (List.any table fun e => e.1 = key ∧ e.2.1 = cidr) then
    List.map (fun e => if e.1 = key ∧ e.2.1 = cidr then (key, cidr, data) else e) table
  else
    table ++ [(key, cidr, data)]

/-- Modelled from the spec: longest-match search, returning the matching
entry's cidr length together with its data. -/
def AllowedIps.getBest {D : Type} : AllowedIps D → Nat → Option (Nat × D)
  | [], _ => none
  | e :: rest, key =>
      let best := AllowedIps.getBest rest key
      if cidrContains e.1 e.2.1 key then
        match best with
        | none => some (e.2.1, e.2.2)
        | some (c, d) => if c < e.2.1 then some (e.2.1, e.2.2) else some (c, d)
      else
        best

/-- Modelled from the spec: `AllowedIps::get` returns the data of the entry
containing `key` with the longest cidr length. -/
def AllowedIps.get {D : Type} (table : AllowedIps D) (key : Nat) : Option D :=
  (AllowedIps.getBest table key).map (·.2)

/-- Build an `AllowedIps` table by a sequence of `insert` calls. -/
def AllowedIps.build {D : Type} (ops : List (Nat × Nat × D)) : AllowedIps D :=
  List.foldl (fun t o => AllowedIps.insert t o.1 o.2.1 o.2.2) (AllowedIps.new D) ops

/-- The `Peer` struct (`peer.rs`). The `name` field models the key under
which the device's `peers_by_name` map shares this peer (`Arc<Peer>` in
Rust). The `endpoint` keeps the address only; the connected-socket handle
is an OS resource outside this model. -/
structure Peer where
  name : List Nat
  local_idx : Nat
  handshake_state : HandshakeState
  endpoint : Option SocketAddrV4
  allowed_ips : AllowedIps Unit

/-- Method `Peer::set_endpoint`: record the observed address only when no address
is recorded yet (first writer wins). -/
def Peer.set_endpoint (p : Peer) (addr : SocketAddrV4) : Peer :=
  if p.endpoint.isSome then p else { p with endpoint := some addr }

/-- Method `Peer::is_allowed_ip`: is the address inside this peer's allowed
ranges? -/
def Peer.is_allowed_ip (p : Peer) (addr : Nat) : Bool :=
  (AllowedIps.get p.allowed_ips addr).isSome

/-- Modelled from the spec: `Peer::encapsulate` is called but not shown in
the post; it wraps the payload as a `Data` message whose `sender_idx` is
the `remote_idx` learned through the handshake (the post: subsequent data
packets include a `sender_idx = remote_idx`). -/
def Peer.encapsulate (p : Peer) (data : List Nat) : Peer × Action :=
  let sender_idx :=
    match p.handshake_state with
    | .HandshakeReceived r => r
    | .Connected r => r
    | _ => 0
  (p, .WriteToNetwork (Packet.format (.Data ⟨sender_idx, data⟩)))

/-- Method `Peer::handle_handshake_init` (`peer.rs`): in state `None`, record the
initiator's index, reply with a `HandshakeResponse` carrying our
`local_idx`, and move to `HandshakeReceived`; in any other state do
nothing. -/
def Peer.handle_handshake_init (p : Peer) (msg : HandshakeInit) : Peer × Action :=
  match p.handshake_state with
  | .None =>
      let p' := { p with handshake_state := .HandshakeReceived msg.assigned_idx }
      let response : HandshakeResponse :=
        { assigned_idx := p.local_idx, sender_idx := msg.assigned_idx }
      (p', .WriteToNetwork (Packet.format (.HandshakeResponse response)))
  | _ => (p, .None)

/-- Method `Peer::handle_handshake_response` (`peer.rs`): in state
`HandshakeSent`, learn `remote_idx`, move to `Connected` and immediately
reply with an empty data packet; otherwise do nothing. -/
def Peer.handle_handshake_response (p : Peer) (msg : HandshakeResponse) : Peer × Action :=
  match p.handshake_state with
  | .HandshakeSent =>
      let p' := { p with handshake_state := .Connected msg.assigned_idx }
      Peer.encapsulate p' []
  | _ => (p, .None)

/-- Method `Peer::handle_packet_data` (`peer.rs`): in `Connected` keep the state;
in `HandshakeReceived r` promote to `Connected r`; in any other state
return `Action::None` untouched. Then parse the payload's IPv4 header: on
success return `WriteToTunn` with the recovered source address, otherwise
`Action::None`. -/
def Peer.handle_packet_data (p : Peer) (msg : PacketData) : Peer × Action :=
  let promoted : Option Peer :=
    match p.handshake_state with
    | .Connected _ => some p
    | .HandshakeReceived r => some { p with handshake_state := .Connected r }
    | _ => none
  match promoted with
  | none => (p, .None)
  | some p' =>
      match ipv4_source msg.data with
      | some src => (p', .WriteToTunn msg.data src)
      | none => (p', .None)

/-- Method `Peer::handle_incoming_packet` (`peer.rs`): dispatch on the packet
kind. -/
def Peer.handle_incoming_packet (p : Peer) (packet : Packet) : Peer × Action :=
  match packet with
  | .Empty => (p, .None)
  | .HandshakeInit msg => Peer.handle_handshake_init p msg
  | .HandshakeResponse msg => Peer.handle_handshake_response p msg
  | .Data msg => Peer.handle_packet_data p msg

/-- Method `Peer::send_handshake` (`peer.rs`): only when the state is `None` and
the endpoint address is known, emit a `HandshakeInit` with our name and
`local_idx` and move to `HandshakeSent`; otherwise do nothing. -/
def Peer.send_handshake (p : Peer) (sender_name : List Nat) : Peer × Action :=
  if p.handshake_state = .None ∧ p.endpoint.isSome then
    let packet : HandshakeInit := { sender_name := sender_name, assigned_idx := p.local_idx }
    ({ p with handshake_state := .HandshakeSent },
      .WriteToNetwork (Packet.format (.HandshakeInit packet)))
  else
    (p, .None)

/-- Feed the byte output of one peer's action into another peer: when the
action writes bytes to the network, parse them and deliver the packet via
`handle_incoming_packet`; otherwise nothing reaches the other peer. -/
def feed (sender_action : Action) (receiver : Peer) : Peer × Action :=
  match sender_action with
  | .WriteToNetwork bytes =>
      match Packet.parse_from bytes with
      | some packet => Peer.handle_incoming_packet receiver packet
      | none => (receiver, .None)
  | _ => (receiver, .None)

/-- The handshake exchange of the spec's round-trip scenario: the
initiator's `send_handshake` output goes to the responder, the responder's
output back to the initiator, and the initiator's resulting data packet to
the responder. Returns the final initiator and responder states. -/
def handshake_exchange (a b : Peer) (sender_name : List Nat) : Peer × Peer :=
  let s1 := Peer.send_handshake a sender_name
  let s2 := feed s1.2 b
  let s3 := feed s2.2 s1.1
  let s4 := feed s3.2 s2.1
  (s3.1, s4.1)

/-- What a `Device` does with one datagram, at the boundary of this model:
bytes written to the tun device, bytes sent over UDP, or nothing. -/
inductive DeviceEffect where
  | SentToTun (data : List Nat)
  | SentToNetwork (data : List Nat)
  | Noop
deriving DecidableEq, Repr

/-- Is the effect a write to the tun device? -/
def DeviceEffect.isTunWrite : DeviceEffect → Bool
  | .SentToTun _ => true
  | _ => false

/-- The `Device` (`dev.rs`) restricted to the state `handle_udp` touches:
the peer list, indexed by position (`peers_by_index`; a peer's `local_idx`
is its position) and searched by name (`peers_by_name`). -/
structure Device where
  peers : List Peer

/-- Method `Device::handle_udp` (`dev.rs`), one datagram: parse the bytes, select
the peer — by name for `HandshakeInit`, by sender index for
`HandshakeResponse` and `Data`, skipping `Empty` — record the datagram's
source address via `set_endpoint`, run `handle_incoming_packet`, and honor
the action: a `WriteToTunn` only when the recovered source address passes
`is_allowed_ip`, a `WriteToNetwork` by a UDP send. (The connected-socket
bookkeeping around `set_endpoint` is OS resource management outside this
model.) -/
def Device.handle_udp_step (d : Device) (bytes : List Nat) (peer_addr : SocketAddrV4) :
    Device × DeviceEffect :=
  match Packet.parse_from bytes with
  | none => (d, .Noop)
  | some packet =>
      let idx? : Option Nat :=
        match packet with
        | .Empty => none
        | .HandshakeInit msg => List.findIdx? (fun p => p.name = msg.sender_name) d.peers
        | .HandshakeResponse msg => some msg.sender_idx
        | .Data msg => some msg.sender_idx
      match idx? with
      | none => (d, .Noop)
      | some i =>
          match d.peers.get? i with
          | none => (d, .Noop)
          | some peer =>
              let peer := Peer.set_endpoint peer peer_addr
              let step := Peer.handle_incoming_packet peer packet
              let d' : Device := ⟨d.peers.set i step.1⟩
              match step.2 with
              | .WriteToTunn data src =>
                  if Peer.is_allowed_ip step.1 src then (d', .SentToTun data)
                  else (d', .Noop)
              | .WriteToNetwork data => (d', .SentToNetwork data)
              | .None => (d', .Noop)

/-- The epoll `Token` type (`poll.rs`), with the `ID` parameter at its
default `i32`; the id is modelled by its 32-bit two's-complement bit
pattern. -/
inductive Token where
  | Tun
  | Sock (id : Nat)
deriving DecidableEq, Repr

/-- Conversion `From<Token> for u64` (`poll.rs`): `Tun` is `1 << 32`; `Sock(i)` is
`2 << 32 | (i as u32 as u64)` — the OR of disjoint bit ranges, written
arithmetically, the cast truncating the id to its low 32 bits. -/
def Token.to_u64 : Token → Nat
  | .Tun => 4294967296
  | .Sock i => 2 * 4294967296 + i % 4294967296

/-- Conversion `TryFrom<u64> for Token` (`poll.rs`): dispatch on `value >> 32`; tag 1
is `Tun`, tag 2 is `Sock(value as i32)` (truncation to the low 32 bits),
anything else is `Err(UnknownToken)`, modelled as `none`. -/
def Token.try_from (value : Nat) : Option Token :=
  let tag := value / 4294967296
  if tag = 1 then some .Tun
  else if tag = 2 then some (.Sock (value % 4294967296))
  else none

/-- A token is well formed when its id fits in 32 bits. -/
def Token.wf : Token → Prop
  | .Tun => True
  | .Sock i => i < 4294967296

instance : DecidablePred Token.wf := by
  intro t
  cases t <;> simp [Token.wf] <;> infer_instance

/-- A 20-byte IPv4 header with source address 10.0.0.1 and destination
10.0.0.2, used as a concrete data payload. -/
def hdr20 : List Nat :=
  [69, 0, 0, 20, 0, 0, 0, 0, 64, 0, 0, 0, 10, 0, 0, 1, 10, 0, 0, 2]

/-- A concrete initiator peer: state `None`, endpoint known. -/
def peerA : Peer :=
  { name := [65], local_idx := 9, handshake_state := .None,
    endpoint := some ⟨167772161, 19988⟩, allowed_ips := [] }

/-- A concrete responder peer: state `None`, endpoint unknown. -/
def peerB : Peer :=
  { name := [66], local_idx := 3, handshake_state := .None,
    endpoint := none, allowed_ips := [] }

/-- A concrete peer sitting in state `HandshakeReceived 7`. -/
def peerRcv : Peer :=
  { name := [67], local_idx := 0, handshake_state := .HandshakeReceived 7,
    endpoint := none, allowed_ips := [] }

/-- A concrete connected peer whose allowed-range set is empty, so no
source address passes `is_allowed_ip`. -/
def pW : Peer :=
  { name := [65], local_idx := 0, handshake_state := .Connected 5,
    endpoint := none, allowed_ips := [] }

/-- A concrete device holding only `pW`. -/
def devW : Device := ⟨[pW]⟩

/-- A concrete insertion history for the address table: the spec's example
`10.0.0.0/24 ↦ 1` and `10.0.0.0/8 ↦ 2`. -/
def opsC2 : List (Nat × Nat × Nat) := [(167772160, 24, 1), (167772160, 8, 2)]

theorem u32_round (n : Nat) (h : n < 4294967296) :
    u32_from_be (n / 16777216 % 256) (n / 65536 % 256) (n / 256 % 256) (n % 256) = n := by
  unfold u32_from_be
  omega

theorem parse_format_init (m : HandshakeInit) (h : m.assigned_idx < 4294967296) :
    Packet.parse_from (Packet.format (Packet.HandshakeInit m)) =
      some (Packet.HandshakeInit m) := by
  obtain ⟨nm, idx⟩ := m
  simp only [HandshakeInit.assigned_idx] at h
  simp [Packet.format, u32_to_be, Packet.parse_from, u32_from_be]
  omega

theorem parse_format_resp (m : HandshakeResponse) (h1 : m.assigned_idx < 4294967296)
    (h2 : m.sender_idx < 4294967296) :
    Packet.parse_from (Packet.format (Packet.HandshakeResponse m)) =
      some (Packet.HandshakeResponse m) := by
  obtain ⟨aidx, sidx⟩ := m
  simp only [HandshakeResponse.assigned_idx] at h1
  simp only [HandshakeResponse.sender_idx] at h2
  simp [Packet.format, u32_to_be, Packet.parse_from, u32_from_be]
  omega

theorem parse_format_data (m : PacketData) (h : m.sender_idx < 4294967296) :
    Packet.parse_from (Packet.format (Packet.Data m)) = some (Packet.Data m) := by
  obtain ⟨sidx, dat⟩ := m
  simp only [PacketData.sender_idx] at h
  simp [Packet.format, u32_to_be, Packet.parse_from, u32_from_be]
  omega

/-- C5: for each wire message kind, and all well-formed field values
(indices below `2^32`; the identity string and data payload may be empty),
parsing the formatted bytes yields the original packet:
`Packet.parse_from (Packet.format m) = some m`. -/
theorem packet_roundtrip (m : Packet) (h : m.wf) :
    Packet.parse_from (Packet.format m) = some m := by
  cases m with
  | HandshakeInit msg => exact parse_format_init msg h
  | HandshakeResponse msg => exact parse_format_resp msg h.1 h.2
  | Data msg => exact parse_format_data msg h
  | Empty => rfl

/-- C5 witness: the roundtrip evaluated at the boundary values the claim
names — an empty identity string, a zero-length data payload, and maximum
32-bit index values. -/
theorem packet_roundtrip_witness :
    Packet.parse_from (Packet.format (Packet.HandshakeInit ⟨[], 4294967295⟩)) =
        some (Packet.HandshakeInit ⟨[], 4294967295⟩) ∧
      Packet.parse_from (Packet.format (Packet.HandshakeResponse ⟨4294967295, 0⟩)) =
        some (Packet.HandshakeResponse ⟨4294967295, 0⟩) ∧
      Packet.parse_from (Packet.format (Packet.Data ⟨4294967295, []⟩)) =
        some (Packet.Data ⟨4294967295, []⟩) :=
  ⟨packet_roundtrip (Packet.HandshakeInit ⟨[], 4294967295⟩) (by decide),
    packet_roundtrip (Packet.HandshakeResponse ⟨4294967295, 0⟩) (by decide),
    packet_roundtrip (Packet.Data ⟨4294967295, []⟩) (by decide)⟩

/-- C10: converting a well-formed `Token` to `u64` and back yields the
original token, and every `u64` whose upper 32 bits are neither 1 nor 2
fails to decode (`Err(UnknownToken)`, modelled as `none`). -/
theorem token_roundtrip_and_unknown :
    (∀ t : Token, t.wf → Token.try_from (Token.to_u64 t) = some t) ∧
      ∀ v : Nat, v < 18446744073709551616 → v / 4294967296 ≠ 1 → v / 4294967296 ≠ 2 →
        Token.try_from v = none := by
  constructor
  · intro t ht
    cases t with
    | Tun => rfl
    | Sock i =>
        simp only [Token.wf] at ht
        simp only [Token.to_u64, Token.try_from]
        rw [Nat.mod_eq_of_lt ht]
        have h1 : (2 * 4294967296 + i) / 4294967296 = 2 := by omega
        have h2 : (2 * 4294967296 + i) % 4294967296 = i := by omega
        simp [h1, h2]
  · intro v _ h1 h2
    simp [Token.try_from, h1, h2]

/-- C10 witness: the roundtrip at `Tun` and at a concrete socket id, and a
decode failure at a value with tag 3. -/
theorem token_roundtrip_and_unknown_witness :
    Token.try_from (Token.to_u64 Token.Tun) = some Token.Tun ∧
      Token.try_from (Token.to_u64 (Token.Sock 4294967295)) = some (Token.Sock 4294967295) ∧
      Token.try_from 12884901890 = none :=
  ⟨token_roundtrip_and_unknown.1 Token.Tun (by decide),
    token_roundtrip_and_unknown.1 (Token.Sock 4294967295) (by decide),
    token_roundtrip_and_unknown.2 12884901890 (by decide) (by decide) (by decide)⟩

/-- C4: `set_endpoint` is trust-on-first-packet — after two calls with two
different addresses, the second call changed nothing, and starting from a
peer with no recorded endpoint the first address is the one retained. -/
theorem set_endpoint_first_write_wins (p : Peer) (a1 a2 : SocketAddrV4) (h : a1 ≠ a2) :
    Peer.set_endpoint (Peer.set_endpoint p a1) a2 = Peer.set_endpoint p a1 ∧
      (p.endpoint = none →
        (Peer.set_endpoint (Peer.set_endpoint p a1) a2).endpoint = some a1) := by
  cases hp : p.endpoint with
  | none => simp [Peer.set_endpoint, hp]
  | some e => simp [Peer.set_endpoint, hp]

/-- C4 witness: the endpoint-free peer `peerB`, updated with two concrete
distinct addresses, retains the first. -/
theorem set_endpoint_first_write_wins_witness :
    (Peer.set_endpoint (Peer.set_endpoint peerB ⟨1, 1⟩) ⟨2, 2⟩).endpoint =
      some (⟨1, 1⟩ : SocketAddrV4) :=
  (set_endpoint_first_write_wins peerB ⟨1, 1⟩ ⟨2, 2⟩ (by decide)).2 rfl

/-- C7: `send_handshake` emits a `HandshakeInit` carrying the sender's name
and the peer's `local_idx` and moves the state to `HandshakeSent` exactly
when the state is `None` and the endpoint address is set; in every other
situation it does nothing and changes no state. -/
theorem send_handshake_spec (p : Peer) (nm : List Nat) :
    (p.handshake_state = .None ∧ p.endpoint.isSome →
        Peer.send_handshake p nm =
          ({ p with handshake_state := .HandshakeSent },
            Action.WriteToNetwork
              (Packet.format (Packet.HandshakeInit ⟨nm, p.local_idx⟩)))) ∧
      (¬(p.handshake_state = .None ∧ p.endpoint.isSome) →
        Peer.send_handshake p nm = (p, Action.None)) := by
  constructor
  · intro h
    simp [Peer.send_handshake, h]
  · intro h
    simp [Peer.send_handshake, h]

/-- C7 witness: `peerA` (state `None`, endpoint set) emits the handshake;
`peerB` (no endpoint) does nothing. -/
theorem send_handshake_spec_witness :
    Peer.send_handshake peerA [68] =
        ({ peerA with handshake_state := .HandshakeSent },
          Action.WriteToNetwork
            (Packet.format (Packet.HandshakeInit ⟨[68], peerA.local_idx⟩))) ∧
      Peer.send_handshake peerB [68] = (peerB, Action.None) :=
  ⟨(send_handshake_spec peerA [68]).1 (by decide),
    (send_handshake_spec peerB [68]).2 (by decide)⟩

/-- C8: in every handshake state other than `None`, a received
`HandshakeInit` is ignored: the action is `None` and the peer — all fields
— is returned unchanged. -/
theorem handshake_init_ignored (p : Peer) (msg : HandshakeInit)
    (h : p.handshake_state ≠ .None) :
    Peer.handle_incoming_packet p (.HandshakeInit msg) = (p, Action.None) := by
  unfold Peer.handle_incoming_packet Peer.handle_handshake_init
  cases hs : p.handshake_state with
  | None => exact absurd hs h
  | HandshakeSent => rfl
  | HandshakeReceived r => rfl
  | Connected r => rfl

/-- C8 witness: a peer in `HandshakeReceived 7` ignores a new
`HandshakeInit`. -/
theorem handshake_init_ignored_witness :
    Peer.handle_incoming_packet peerRcv (.HandshakeInit ⟨[65], 5⟩) = (peerRcv, Action.None) :=
  handshake_init_ignored peerRcv ⟨[65], 5⟩ (by decide)

/-- C9: in state `Connected` or `HandshakeReceived`, a `Data` packet whose
payload does not parse as an IPv4 header yields action `None`; and a peer
in `HandshakeReceived r` is still promoted to `Connected r`, the state
transition happening before the payload is inspected. -/
theorem data_bad_payload_noop_still_promotes (p : Peer) (msg : PacketData) :
    (∀ r, (p.handshake_state = .Connected r ∨ p.handshake_state = .HandshakeReceived r) →
        ipv4_source msg.data = none →
        (Peer.handle_incoming_packet p (.Data msg)).2 = Action.None) ∧
      ∀ r, p.handshake_state = .HandshakeReceived r →
        (Peer.handle_incoming_packet p (.Data msg)).1.handshake_state = .Connected r := by
  constructor
  · intro r hr hip
    rcases hr with h | h <;>
      simp [Peer.handle_incoming_packet, Peer.handle_packet_data, h, hip]
  · intro r h
    cases hip : ipv4_source msg.data <;>
      simp [Peer.handle_incoming_packet, Peer.handle_packet_data, h, hip]

/-- C9 witness: `peerRcv` fed a `Data` packet with empty payload gives
action `None` yet moves to `Connected 7`. -/
theorem data_bad_payload_noop_still_promotes_witness :
    (Peer.handle_incoming_packet peerRcv (.Data ⟨7, []⟩)).2 = Action.None ∧
      (Peer.handle_incoming_packet peerRcv (.Data ⟨7, []⟩)).1.handshake_state =
        HandshakeState.Connected 7 :=
  ⟨(data_bad_payload_noop_still_promotes peerRcv ⟨7, []⟩).1 7 (by decide) (by rfl),
    (data_bad_payload_noop_still_promotes peerRcv ⟨7, []⟩).2 7 (by decide)⟩

/-- C3 counterexample: a peer in `HandshakeReceived 7` receiving a `Data`
packet whose payload is a valid IPv4 header does NOT take action `None` —
it emits a `WriteToTunn`, refuting "the action taken is none" for an
arbitrary `Data` packet. -/
theorem data_in_received_can_write_tunnel :
    (Peer.handle_incoming_packet peerRcv (.Data ⟨7, hdr20⟩)).2 ≠ Action.None := by
  decide

/-- C3 (amended): a peer in `HandshakeReceived r` receiving any `Data`
packet is promoted to `Connected r`; the action is `None` when the payload
does not parse as an IPv4 header (as for the empty payload sent on the
blessed path) and `WriteToTunn(payload, src)` when it does. -/
theorem data_in_received_promotes (p : Peer) (msg : PacketData) (r : Nat)
    (h : p.handshake_state = .HandshakeReceived r) :
    (Peer.handle_incoming_packet p (.Data msg)).1.handshake_state = .Connected r ∧
      (Peer.handle_incoming_packet p (.Data msg)).2 =
        (match ipv4_source msg.data with
          | some src => Action.WriteToTunn msg.data src
          | none => Action.None) := by
  cases hip : ipv4_source msg.data <;>
    simp [Peer.handle_incoming_packet, Peer.handle_packet_data, h, hip]

/-- C3 (amended) witness: `peerRcv` with the concrete IPv4 payload `hdr20`
is promoted to `Connected 7` and the action is the tunnel write with the
recovered source 10.0.0.1. -/
theorem data_in_received_promotes_witness :
    (Peer.handle_incoming_packet peerRcv (.Data ⟨7, hdr20⟩)).1.handshake_state =
        HandshakeState.Connected 7 ∧
      (Peer.handle_incoming_packet peerRcv (.Data ⟨7, hdr20⟩)).2 =
        Action.WriteToTunn hdr20 167772161 := by
  have h := data_in_received_promotes peerRcv ⟨7, hdr20⟩ 7 (by rfl)
  refine ⟨h.1, ?_⟩
  rw [h.2]
  decide

theorem ipv4_source_nil : ipv4_source [] = none := rfl

/-- C1: for two peers configured as each other's peer, the initiator having
the responder's endpoint address and both starting in state `None` (with
32-bit indices), the three-message exchange — `send_handshake` output into
the responder, the responder's `HandshakeResponse` back into the
initiator, and the resulting `Data` packet into the responder — leaves
both in `Connected`, each with `remote_idx` equal to the other's
`local_idx`. -/
theorem handshake_roundtrip_connects (a b : Peer) (nm : List Nat)
    (ha : a.handshake_state = .None) (hb : b.handshake_state = .None)
    (hep : a.endpoint.isSome) (hia : a.local_idx < 4294967296)
    (hib : b.local_idx < 4294967296) :
    (handshake_exchange a b nm).1.handshake_state = .Connected b.local_idx ∧
      (handshake_exchange a b nm).2.handshake_state = .Connected a.local_idx := by
  simp [handshake_exchange, feed, Peer.send_handshake, ha, hb, hep, hia, hib,
    Peer.handle_incoming_packet, Peer.handle_handshake_init, Peer.handle_handshake_response,
    Peer.handle_packet_data, Peer.encapsulate, ipv4_source_nil,
    parse_format_init, parse_format_resp, parse_format_data]

/-- C1 witness: the exchange between the concrete peers `peerA`
(`local_idx` 9, endpoint known) and `peerB` (`local_idx` 3). -/
theorem handshake_roundtrip_connects_witness :
    (handshake_exchange peerA peerB [65]).1.handshake_state = HandshakeState.Connected 3 ∧
      (handshake_exchange peerA peerB [65]).2.handshake_state = HandshakeState.Connected 9 :=
  handshake_roundtrip_connects peerA peerB [65] (by decide) (by decide) (by decide)
    (by decide) (by decide)

theorem set_endpoint_allowed_ips (p : Peer) (addr : SocketAddrV4) :
    (Peer.set_endpoint p addr).allowed_ips = p.allowed_ips := by
  unfold Peer.set_endpoint
  split <;> rfl

theorem handle_packet_data_allowed_ips (p : Peer) (msg : PacketData) :
    (Peer.handle_packet_data p msg).1.allowed_ips = p.allowed_ips := by
  cases h : p.handshake_state <;> cases hip : ipv4_source msg.data <;>
    simp [Peer.handle_packet_data, h, hip]

theorem handle_packet_data_action (p : Peer) (msg : PacketData) (src : Nat)
    (hsrc : ipv4_source msg.data = some src) :
    (Peer.handle_packet_data p msg).2 = Action.None ∨
      (Peer.handle_packet_data p msg).2 = Action.WriteToTunn msg.data src := by
  cases h : p.handshake_state <;> simp [Peer.handle_packet_data, h, hsrc]

/-- C6: an incoming `Data` datagram that decodes correctly and resolves to
a peer by its sender index, but whose recovered IPv4 source address is
outside that peer's allowed ranges, is never written to the tun device by
`handle_udp`. -/
theorem disallowed_source_not_written_to_tun (d : Device) (bytes : List Nat)
    (addr : SocketAddrV4) (msg : PacketData) (p : Peer) (src : Nat)
    (hparse : Packet.parse_from bytes = some (.Data msg))
    (hpeer : d.peers.get? msg.sender_idx = some p)
    (hsrc : ipv4_source msg.data = some src)
    (hallow : Peer.is_allowed_ip p src = false) :
    DeviceEffect.isTunWrite (Device.handle_udp_step d bytes addr).2 = false := by
  have hstep_allowed :
      (Peer.handle_packet_data (Peer.set_endpoint p addr) msg).1.allowed_ips =
        p.allowed_ips := by
    rw [handle_packet_data_allowed_ips, set_endpoint_allowed_ips]
  have hallow' :
      Peer.is_allowed_ip (Peer.handle_packet_data (Peer.set_endpoint p addr) msg).1 src =
        false := by
    unfold Peer.is_allowed_ip at hallow ⊢
    rw [hstep_allowed]
    exact hallow
  have hpeer' : d.peers[msg.sender_idx]? = some p := by
    rw [← List.get?_eq_getElem?]
    exact hpeer
  rcases handle_packet_data_action (Peer.set_endpoint p addr) msg src hsrc with hact | hact <;>
    simp [Device.handle_udp_step, hparse, Peer.handle_incoming_packet, hpeer', hact, hallow',
      DeviceEffect.isTunWrite]

/-- C6 witness: the device `devW` (its one peer allows no source address)
drops the well-formed `Data` datagram carrying `hdr20`. -/
theorem disallowed_source_not_written_to_tun_witness :
    DeviceEffect.isTunWrite
        (Device.handle_udp_step devW (Packet.format (.Data ⟨0, hdr20⟩)) ⟨1, 1⟩).2 = false :=
  disallowed_source_not_written_to_tun devW (Packet.format (.Data ⟨0, hdr20⟩)) ⟨1, 1⟩
    ⟨0, hdr20⟩ pW 167772161 (by rfl) (by rfl) (by rfl) (by rfl)

theorem getBest_none {D : Type} (t : AllowedIps D) (key : Nat)
    (h : ∀ e ∈ t, cidrContains e.1 e.2.1 key = false) :
    AllowedIps.getBest t key = none := by
  induction t with
  | nil => rfl
  | cons e rest ih =>
      have he := h e (List.mem_cons_self e rest)
      have hr := ih fun x hx => h x (List.mem_cons_of_mem e hx)
      simp [AllowedIps.getBest, he, hr]

theorem getBest_spec {D : Type} (t : AllowedIps D) (key : Nat) :
    (AllowedIps.getBest t key = none ∧ ∀ e ∈ t, cidrContains e.1 e.2.1 key = false) ∨
      ∃ c d, AllowedIps.getBest t key = some (c, d) ∧
        (∃ e' ∈ t, e'.2.1 = c ∧ e'.2.2 = d ∧ cidrContains e'.1 e'.2.1 key = true) ∧
        ∀ e'' ∈ t, cidrContains e''.1 e''.2.1 key = true → e''.2.1 ≤ c := by
  induction t with
  | nil => exact Or.inl ⟨rfl, by simp⟩
  | cons a rest ih =>
      cases ha : cidrContains a.1 a.2.1 key with
      | false =>
          rcases ih with ⟨hnone, hall⟩ | ⟨c, d, hsome, ⟨e', he', hc, hd, hm⟩, hmax⟩
          · refine Or.inl ⟨by simp [AllowedIps.getBest, ha, hnone], ?_⟩
            intro e he
            rcases List.mem_cons.mp he with rfl | he
            · exact ha
            · exact hall e he
          · refine Or.inr ⟨c, d, by simp [AllowedIps.getBest, ha, hsome], ?_, ?_⟩
            · exact ⟨e', List.mem_cons_of_mem a he', hc, hd, hm⟩
            · intro e he hme
              rcases List.mem_cons.mp he with rfl | he
              · rw [ha] at hme
                exact absurd hme (by simp)
              · exact hmax e he hme
      | true =>
          rcases ih with ⟨hnone, hall⟩ | ⟨c, d, hsome, ⟨e', he', hc, hd, hm⟩, hmax⟩
          · refine Or.inr ⟨a.2.1, a.2.2, by simp [AllowedIps.getBest, ha, hnone], ?_, ?_⟩
            · exact ⟨a, List.mem_cons_self a rest, rfl, rfl, ha⟩
            · intro e he hme
              rcases List.mem_cons.mp he with rfl | he
              · exact Nat.le_refl _
              · rw [hall e he] at hme
                exact absurd hme (by simp)
          · by_cases hlt : c < a.2.1
            · refine Or.inr ⟨a.2.1, a.2.2,
                by simp [AllowedIps.getBest, ha, hsome, hlt], ?_, ?_⟩
              · exact ⟨a, List.mem_cons_self a rest, rfl, rfl, ha⟩
              · intro e he hme
                rcases List.mem_cons.mp he with rfl | he
                · exact Nat.le_refl _
                · exact Nat.le_of_lt (Nat.lt_of_le_of_lt (hmax e he hme) hlt)
            · refine Or.inr ⟨c, d,
                by simp [AllowedIps.getBest, ha, hsome, hlt], ?_, ?_⟩
              · exact ⟨e', List.mem_cons_of_mem a he', hc, hd, hm⟩
              · intro e he hme
                rcases List.mem_cons.mp he with rfl | he
                · exact Nat.le_of_not_lt hlt
                · exact hmax e he hme

/-- C2: for an `AllowedIps` table built by a sequence of `insert` calls
with cidr lengths 0–32, `get x` is `none` when no entry's range contains
`x`, and otherwise is the value of an entry containing `x` whose cidr
length is maximal among all entries containing `x`. -/
theorem allowed_ips_longest_match {D : Type} (ops : List (Nat × Nat × D)) (key : Nat)
    (hc : ∀ e ∈ AllowedIps.build ops, e.2.1 ≤ 32) :
    ((∀ e ∈ AllowedIps.build ops, cidrContains e.1 e.2.1 key = false) →
        AllowedIps.get (AllowedIps.build ops) key = none) ∧
      ∀ e ∈ AllowedIps.build ops, cidrContains e.1 e.2.1 key = true →
        ∃ e' ∈ AllowedIps.build ops, cidrContains e'.1 e'.2.1 key = true ∧
          AllowedIps.get (AllowedIps.build ops) key = some e'.2.2 ∧
          ∀ e'' ∈ AllowedIps.build ops, cidrContains e''.1 e''.2.1 key = true →
            e''.2.1 ≤ e'.2.1 := by
  constructor
  · intro h
    unfold AllowedIps.get
    rw [getBest_none _ _ h]
    rfl
  · intro e he hme
    rcases getBest_spec (AllowedIps.build ops) key with ⟨_, hall⟩ |
      ⟨c, d, hsome, ⟨e', he', hc', hd', hm'⟩, hmax⟩
    · rw [hall e he] at hme
      exact absurd hme (by simp)
    · refine ⟨e', he', hm', ?_, ?_⟩
      · simp [AllowedIps.get, hsome, hd']
      · intro e'' h1 h2
        rw [hc']
        exact hmax e'' h1 h2

/-- C2 witness: with the insertion history `10.0.0.0/24 ↦ 1`,
`10.0.0.0/8 ↦ 2`, the lookup of 10.0.0.5 is resolved by an entry of
maximal matching cidr length. -/
theorem allowed_ips_longest_match_witness :
    ∃ e' ∈ AllowedIps.build opsC2, cidrContains e'.1 e'.2.1 167772165 = true ∧
      AllowedIps.get (AllowedIps.build opsC2) 167772165 = some e'.2.2 ∧
      ∀ e'' ∈ AllowedIps.build opsC2, cidrContains e''.1 e''.2.1 167772165 = true →
        e''.2.1 ≤ e'.2.1 :=
  (allowed_ips_longest_match opsC2 167772165 (by decide)).2 (167772160, 24, 1)
    (by decide) (by decide)

end Wontun
